import Mathlib

/-!
Verification of the flax reverse-proxy core against its design document.

Each Rust module of the proxy is shallowly embedded as Lean definitions:
pure functions become Lean functions, stateful operations become explicit
state passing, machine integers become `Nat`/`Int` with explicit masking
where the source masks.  File descriptors are modelled as `Int` (Rust
`RawFd = i32`, with the sentinel `-1`); descriptor *closing* is modelled by
returning the list of descriptors the operation closed.
-/

namespace Flax

/-! ## Completion-tag codec (src/core/stream_pump.rs, src/core/user_data.rs) -/

/-- `OpCode` from src/core/stream_pump.rs (`repr(u8)`, discriminants 1..6). -/
inductive OpCode where
  | Accept
  | ConnectBack
  | Recv
  | Send
  | Timeout
  | RecvHeaders
deriving DecidableEq, Repr

/-- The `repr(u8)` discriminant of an `OpCode`. -/
def OpCode.toNat : OpCode → Nat
  | .Accept => 1
  | .ConnectBack => 2
  | .Recv => 3
  | .Send => 4
  | .Timeout => 5
  | .RecvHeaders => 6

/-- `OpCode::try_from_u8` from src/core/stream_pump.rs. -/
def OpCode.try_from_u8 (v : Nat) : Option OpCode :=
  match v with
  | 1 => some .Accept
  | 2 => some .ConnectBack
  | 3 => some .Recv
  | 4 => some .Send
  | 5 => some .Timeout
  | 6 => some .RecvHeaders
  | _ => none

/-- `Direction` from src/core/stream_pump.rs (`repr(u8)`, 0 and 1). -/
inductive Direction where
  | ClientToBackend
  | BackendToClient
deriving DecidableEq, Repr

/-- The `repr(u8)` discriminant of a `Direction`. -/
def Direction.toNat : Direction → Nat
  | .ClientToBackend => 0
  | .BackendToClient => 1

/-- `Operation` from src/core/stream_pump.rs. -/
inductive Operation where
  | Accept
  | ConnectBackend
  | Recv (d : Direction)
  | Send (d : Direction)
  | Timeout (d : Direction)
  | RecvHeaders
deriving DecidableEq, Repr

/- Bit-layout constants from src/core/user_data.rs. -/

def OPCODE_BITS : Nat := 7
def DIR_BITS : Nat := 1
def ID_BITS : Nat := 64 - (OPCODE_BITS + DIR_BITS)

def OPCODE_MASK : Nat := (1 <<< OPCODE_BITS) - 1
def DIR_MASK : Nat := (1 <<< DIR_BITS) - 1
def ID_MASK : Nat := (1 <<< ID_BITS) - 1

def OPCODE_SHIFT : Nat := 0
def DIR_SHIFT : Nat := OPCODE_SHIFT + OPCODE_BITS
def ID_SHIFT : Nat := DIR_SHIFT + DIR_BITS

/-- `pack_user_data` from src/core/user_data.rs.  The `u64` arithmetic of
the source never overflows 64 bits (each field is masked before the
shift), so plain `Nat` bit operations agree with the source. -/
def pack_user_data (pair_id : Nat) (op : Operation) : Nat :=
  let oc : OpCode × Nat :=
    match op with
    | .Accept => (.Accept, 0)
    | .ConnectBackend => (.ConnectBack, 0)
    | .Recv d => (.Recv, d.toNat)
    | .Send d => (.Send, d.toNat)
    | .Timeout d => (.Timeout, d.toNat)
    | .RecvHeaders => (.RecvHeaders, 0)
  ((pair_id &&& ID_MASK) <<< ID_SHIFT)
    ||| ((oc.2 &&& DIR_MASK) <<< DIR_SHIFT)
    ||| (oc.1.toNat &&& OPCODE_MASK)

/-- `unpack_user_data` from src/core/user_data.rs.  Note the `None` arm of
the opcode match: the source maps an unrecognized opcode to
`Operation::Accept` (with a `TODO` comment) instead of failing. -/
def unpack_user_data (tag : Nat) : Nat × Operation :=
  ((tag >>> ID_SHIFT) &&& ID_MASK,
    match OpCode.try_from_u8 ((tag >>> OPCODE_SHIFT) &&& OPCODE_MASK) with
    | some .Accept => Operation.Accept
    | some .ConnectBack => Operation.ConnectBackend
    | some .Recv =>
        Operation.Recv
          (if (tag >>> DIR_SHIFT) &&& DIR_MASK = 0 then .ClientToBackend else .BackendToClient)
    | some .Send =>
        Operation.Send
          (if (tag >>> DIR_SHIFT) &&& DIR_MASK = 0 then .ClientToBackend else .BackendToClient)
    | some .Timeout =>
        Operation.Timeout
          (if (tag >>> DIR_SHIFT) &&& DIR_MASK = 0 then .ClientToBackend else .BackendToClient)
    | some .RecvHeaders => Operation.RecvHeaders
    | none => Operation.Accept)

/-! Arithmetic views of the three packed fields. -/

lemma tag_field_opc (t : Nat) : (t >>> OPCODE_SHIFT) &&& OPCODE_MASK = t % 128 := by
  rw [show OPCODE_SHIFT = 0 from rfl, Nat.shiftRight_zero,
    show OPCODE_MASK = 2 ^ 7 - 1 by decide, Nat.and_pow_two_sub_one_eq_mod]

lemma tag_field_dir (t : Nat) : (t >>> DIR_SHIFT) &&& DIR_MASK = t / 128 % 2 := by
  rw [show DIR_SHIFT = 7 from rfl, Nat.shiftRight_eq_div_pow,
    show DIR_MASK = 2 ^ 1 - 1 by decide, Nat.and_pow_two_sub_one_eq_mod]

lemma tag_field_id (t : Nat) :
    (t >>> ID_SHIFT) &&& ID_MASK = t / 256 % 72057594037927936 := by
  rw [show ID_SHIFT = 8 from rfl, Nat.shiftRight_eq_div_pow,
    show ID_MASK = 2 ^ 56 - 1 by decide, Nat.and_pow_two_sub_one_eq_mod]

/-- The three disjoint bit fields of a packed tag, as plain arithmetic. -/
lemma pack_decomp (id d c : Nat) (hid : id < 72057594037927936) (hd : d < 2)
    (hc : c < 128) :
    ((id &&& ID_MASK) <<< ID_SHIFT) ||| ((d &&& DIR_MASK) <<< DIR_SHIFT)
        ||| (c &&& OPCODE_MASK)
      = 256 * id + 128 * d + c := by
  rw [show ID_MASK = 2 ^ 56 - 1 by decide, show DIR_MASK = 2 ^ 1 - 1 by decide,
    show OPCODE_MASK = 2 ^ 7 - 1 by decide,
    Nat.and_pow_two_sub_one_eq_mod, Nat.and_pow_two_sub_one_eq_mod,
    Nat.and_pow_two_sub_one_eq_mod,
    Nat.mod_eq_of_lt (by norm_num at hid ⊢; omega),
    Nat.mod_eq_of_lt (by norm_num; omega),
    Nat.mod_eq_of_lt (by norm_num; omega),
    show ID_SHIFT = 8 from rfl, show DIR_SHIFT = 7 from rfl,
    Nat.shiftLeft_eq, Nat.shiftLeft_eq]
  have h1 : id * 2 ^ 8 ||| d * 2 ^ 7 = 2 ^ 8 * id + d * 2 ^ 7 := by
    rw [Nat.mul_comm id (2 ^ 8)]
    exact (Nat.mul_add_lt_is_or (by omega) id).symm
  rw [h1]
  have h2 : 2 ^ 8 * id + d * 2 ^ 7 = 2 ^ 7 * (2 * id + d) := by ring
  rw [h2]
  rw [← Nat.mul_add_lt_is_or (by omega) (2 * id + d)]
  ring

/-- Unpacking a tag given by its three arithmetic fields. -/
lemma unpack_arith (id d c : Nat) (hid : id < 72057594037927936) (hd : d < 2)
    (hc : c < 128) :
    unpack_user_data (256 * id + 128 * d + c)
      = (id,
        match OpCode.try_from_u8 c with
        | some .Accept => Operation.Accept
        | some .ConnectBack => Operation.ConnectBackend
        | some .Recv =>
            Operation.Recv (if d = 0 then .ClientToBackend else .BackendToClient)
        | some .Send =>
            Operation.Send (if d = 0 then .ClientToBackend else .BackendToClient)
        | some .Timeout =>
            Operation.Timeout (if d = 0 then .ClientToBackend else .BackendToClient)
        | some .RecvHeaders => Operation.RecvHeaders
        | none => Operation.Accept) := by
  have hopc : (256 * id + 128 * d + c) >>> OPCODE_SHIFT &&& OPCODE_MASK = c := by
    rw [tag_field_opc]; omega
  have hdir : (256 * id + 128 * d + c) >>> DIR_SHIFT &&& DIR_MASK = d := by
    rw [tag_field_dir]; omega
  have hidf : (256 * id + 128 * d + c) >>> ID_SHIFT &&& ID_MASK = id := by
    rw [tag_field_id]; omega
  simp only [unpack_user_data, hopc, hdir, hidf]

/-- C5: for every connection id strictly below 2^56 and every valid operation
(Accept, ConnectBackend, RecvHeaders, and Recv, Send, Timeout in either
direction), unpacking the packed 64-bit completion tag yields exactly the
original pair: `unpack_user_data (pack_user_data id op) = (id, op)`. -/
theorem C5_tag_codec_roundtrip (id : Nat) (op : Operation) (hid : id < 2 ^ 56) :
    unpack_user_data (pack_user_data id op) = (id, op) := by
  have hid' : id < 72057594037927936 := by norm_num at hid; exact hid
  cases op with
  | Accept =>
    have hp : pack_user_data id .Accept = 256 * id + 128 * 0 + 1 := by
      show ((id &&& ID_MASK) <<< ID_SHIFT) ||| ((0 &&& DIR_MASK) <<< DIR_SHIFT)
          ||| (1 &&& OPCODE_MASK) = _
      exact pack_decomp id 0 1 hid' (by omega) (by omega)
    rw [hp, unpack_arith id 0 1 hid' (by omega) (by omega)]; rfl
  | ConnectBackend =>
    have hp : pack_user_data id .ConnectBackend = 256 * id + 128 * 0 + 2 := by
      show ((id &&& ID_MASK) <<< ID_SHIFT) ||| ((0 &&& DIR_MASK) <<< DIR_SHIFT)
          ||| (2 &&& OPCODE_MASK) = _
      exact pack_decomp id 0 2 hid' (by omega) (by omega)
    rw [hp, unpack_arith id 0 2 hid' (by omega) (by omega)]; rfl
  | Recv d =>
    cases d with
    | ClientToBackend =>
      have hp : pack_user_data id (.Recv .ClientToBackend) = 256 * id + 128 * 0 + 3 := by
        show ((id &&& ID_MASK) <<< ID_SHIFT) ||| ((0 &&& DIR_MASK) <<< DIR_SHIFT)
            ||| (3 &&& OPCODE_MASK) = _
        exact pack_decomp id 0 3 hid' (by omega) (by omega)
      rw [hp, unpack_arith id 0 3 hid' (by omega) (by omega)]; rfl
    | BackendToClient =>
      have hp : pack_user_data id (.Recv .BackendToClient) = 256 * id + 128 * 1 + 3 := by
        show ((id &&& ID_MASK) <<< ID_SHIFT) ||| ((1 &&& DIR_MASK) <<< DIR_SHIFT)
            ||| (3 &&& OPCODE_MASK) = _
        exact pack_decomp id 1 3 hid' (by omega) (by omega)
      rw [hp, unpack_arith id 1 3 hid' (by omega) (by omega)]; rfl
  | Send d =>
    cases d with
    | ClientToBackend =>
      have hp : pack_user_data id (.Send .ClientToBackend) = 256 * id + 128 * 0 + 4 := by
        show ((id &&& ID_MASK) <<< ID_SHIFT) ||| ((0 &&& DIR_MASK) <<< DIR_SHIFT)
            ||| (4 &&& OPCODE_MASK) = _
        exact pack_decomp id 0 4 hid' (by omega) (by omega)
      rw [hp, unpack_arith id 0 4 hid' (by omega) (by omega)]; rfl
    | BackendToClient =>
      have hp : pack_user_data id (.Send .BackendToClient) = 256 * id + 128 * 1 + 4 := by
        show ((id &&& ID_MASK) <<< ID_SHIFT) ||| ((1 &&& DIR_MASK) <<< DIR_SHIFT)
            ||| (4 &&& OPCODE_MASK) = _
        exact pack_decomp id 1 4 hid' (by omega) (by omega)
      rw [hp, unpack_arith id 1 4 hid' (by omega) (by omega)]; rfl
  | Timeout d =>
    cases d with
    | ClientToBackend =>
      have hp : pack_user_data id (.Timeout .ClientToBackend) = 256 * id + 128 * 0 + 5 := by
        show ((id &&& ID_MASK) <<< ID_SHIFT) ||| ((0 &&& DIR_MASK) <<< DIR_SHIFT)
            ||| (5 &&& OPCODE_MASK) = _
        exact pack_decomp id 0 5 hid' (by omega) (by omega)
      rw [hp, unpack_arith id 0 5 hid' (by omega) (by omega)]; rfl
    | BackendToClient =>
      have hp : pack_user_data id (.Timeout .BackendToClient) = 256 * id + 128 * 1 + 5 := by
        show ((id &&& ID_MASK) <<< ID_SHIFT) ||| ((1 &&& DIR_MASK) <<< DIR_SHIFT)
            ||| (5 &&& OPCODE_MASK) = _
        exact pack_decomp id 1 5 hid' (by omega) (by omega)
      rw [hp, unpack_arith id 1 5 hid' (by omega) (by omega)]; rfl
  | RecvHeaders =>
    have hp : pack_user_data id .RecvHeaders = 256 * id + 128 * 0 + 6 := by
      show ((id &&& ID_MASK) <<< ID_SHIFT) ||| ((0 &&& DIR_MASK) <<< DIR_SHIFT)
          ||| (6 &&& OPCODE_MASK) = _
      exact pack_decomp id 0 6 hid' (by omega) (by omega)
    rw [hp, unpack_arith id 0 6 hid' (by omega) (by omega)]; rfl

/-- Witness for C5 at id 5 and the backend-to-client Recv operation. -/
theorem C5_tag_codec_roundtrip_witness :
    5 < 2 ^ 56
      ∧ unpack_user_data (pack_user_data 5 (.Recv .BackendToClient))
          = (5, Operation.Recv .BackendToClient) :=
  ⟨by norm_num, C5_tag_codec_roundtrip 5 (.Recv .BackendToClient) (by norm_num)⟩

/-- C4 counterexample: tag 1287 = 5·256 + 7 carries the invalid opcode 7 in its
low 7 bits, yet `unpack_user_data` silently maps it to `Operation::Accept`
with id 5, rather than treating it as a fatal programming error. -/
theorem C4_unknown_opcode_counterexample :
    OpCode.try_from_u8 7 = none ∧ unpack_user_data 1287 = (5, Operation.Accept) := by
  constructor
  · rfl
  · rfl

/-- C4 amended: decoding a completion tag whose low 7 bits hold an opcode
outside the valid set does not abort the worker; `unpack_user_data` maps the
unknown opcode to `Operation::Accept`, keeping the decoded id, and the
completion is then dispatched like an Accept completion. -/
theorem C4_unknown_opcode_maps_to_accept (tag : Nat)
    (h : OpCode.try_from_u8 (tag >>> OPCODE_SHIFT &&& OPCODE_MASK) = none) :
    unpack_user_data tag = (tag >>> ID_SHIFT &&& ID_MASK, Operation.Accept) := by
  simp only [unpack_user_data, h]

/-- Witness for the amended C4 at tag 127 (opcode bits 127, invalid). -/
theorem C4_unknown_opcode_maps_to_accept_witness :
    OpCode.try_from_u8 (127 >>> OPCODE_SHIFT &&& OPCODE_MASK) = none
      ∧ unpack_user_data 127 = (127 >>> ID_SHIFT &&& ID_MASK, Operation.Accept) :=
  ⟨by decide, C4_unknown_opcode_maps_to_accept 127 (by decide)⟩

/-! ## Backend registry (src/backend/pool.rs) -/

/-- A socket address: IP and TCP port.  `SocketAddr` equality in the source
is by address; we encode the IPv4 address as its 32-bit integer. -/
structure SockAddr where
  ip : Nat
  port : Nat
deriving DecidableEq, Repr

/-- `usize` modulus: the selection counter is a `usize` whose `fetch_add`
wraps at 2^64. -/
def USIZE_MOD : Nat := 2 ^ 64

/-- `BackendPool` from src/backend/pool.rs.  `Backend` is a single-field
wrapper around the address (equality is by address), so backends are
modelled directly as addresses.  The `RwLock`/`AtomicUsize` wrappers
disappear in this sequential embedding; mutation is explicit state
passing. -/
structure BackendPool where
  backends : List SockAddr
  counter : Nat
deriving DecidableEq, Repr

/-- `BackendPool::new`. -/
def BackendPool.new (backends : List SockAddr) : BackendPool :=
  ⟨backends, 0⟩

/-- `BackendPool::select`.  Mirrors the source exactly: on an empty list it
returns early with `None` (before the `fetch_add`), otherwise it indexes at
the previous counter value mod the length and increments the (wrapping)
counter. -/
def BackendPool.select (p : BackendPool) : Option SockAddr × BackendPool :=
  if h : p.backends = [] then (none, p)
  else
    (some (p.backends.get
        ⟨p.counter % p.backends.length,
          Nat.mod_lt _ (List.length_pos.mpr h)⟩),
      { p with counter := (p.counter + 1) % USIZE_MOD })

/-- `BackendPool::add_backend`. -/
def BackendPool.add_backend (p : BackendPool) (a : SockAddr) : BackendPool :=
  { p with backends := p.backends ++ [a] }

/-- `BackendPool::remove_backend`: removes the first entry equal to the
address and reports whether one existed. -/
def BackendPool.remove_backend (p : BackendPool) (a : SockAddr) : BackendPool × Bool :=
  if a ∈ p.backends then ({ p with backends := p.backends.erase a }, true)
  else (p, false)

/-- `BackendPool::list_backends`. -/
def BackendPool.list_backends (p : BackendPool) : List SockAddr :=
  p.backends

/-- `BackendPool::count`. -/
def BackendPool.count (p : BackendPool) : Nat :=
  p.backends.length

/-- `BackendPool::clear`. -/
def BackendPool.clear (p : BackendPool) : BackendPool :=
  { p with backends := [] }

/-- The hardcoded fallback of `select_backend`: `"127.0.0.1:8081"`
(127.0.0.1 = 0x7F000001 = 2130706433). -/
def FALLBACK_ADDR : SockAddr := ⟨2130706433, 8081⟩

/-- `select_backend` from src/backend/pool.rs: the worker-facing selection
that substitutes the hardcoded fallback when `select` yields `None`. -/
def select_backend (p : BackendPool) : SockAddr × BackendPool :=
  match p.select with
  | (some a, p') => (a, p')
  | (none, p') => (FALLBACK_ADDR, p')

/-- `n` consecutive `select` calls; returns the results in call order and
the final registry state. -/
def BackendPool.selectN (p : BackendPool) : Nat → List (Option SockAddr) × BackendPool
  | 0 => ([], p)
  | n + 1 =>
    let r := p.select
    let rest := r.2.selectN n
    (r.1 :: rest.1, rest.2)

/-- The three default backends from src/main.rs (127.0.0.1:8081..8083),
used as concrete scenario addresses. -/
def addrA : SockAddr := ⟨2130706433, 8081⟩

def addrB : SockAddr := ⟨2130706433, 8082⟩

def addrC : SockAddr := ⟨2130706433, 8083⟩

/-- C2: `select()` returns `None` exactly when the backend list is empty;
otherwise it returns the element at index `counter % length` and increments
the (wrapping `usize`) counter without touching the list.  Concretely, with
backends `[A, B, C]` six consecutive calls return `A, B, C, A, B, C`, and
after removing `B` four more calls return `A, C, A, C`. -/
theorem C2_select_round_robin :
    (∀ p : BackendPool, (p.select).1 = none ↔ p.backends = [])
      ∧ (∀ p : BackendPool, p.backends ≠ [] →
          (p.select).1 = p.backends[p.counter % p.backends.length]?
            ∧ (p.select).2.backends = p.backends
            ∧ (p.select).2.counter = (p.counter + 1) % USIZE_MOD)
      ∧ ((BackendPool.new [addrA, addrB, addrC]).selectN 6).1
          = [some addrA, some addrB, some addrC, some addrA, some addrB, some addrC]
      ∧ ((((BackendPool.new [addrA, addrB, addrC]).selectN 6).2.remove_backend
            addrB).1.selectN 4).1
          = [some addrA, some addrC, some addrA, some addrC]
      ∧ (((BackendPool.new [addrA, addrB, addrC]).selectN 6).2.remove_backend addrB).2
          = true := by
  refine ⟨?_, ?_, by decide, by decide, by decide⟩
  · intro p
    unfold BackendPool.select
    split
    · simp [*]
    · simp [*]
  · intro p h
    unfold BackendPool.select
    rw [dif_neg h]
    refine ⟨?_, rfl, rfl⟩
    rw [List.getElem?_eq_getElem (Nat.mod_lt _ (List.length_pos.mpr h))]
    rfl

/-- Witness for C2 at the one-element registry `[A]` with counter 5. -/
theorem C2_select_round_robin_witness :
    (BackendPool.mk [addrA] 5).backends ≠ []
      ∧ (((BackendPool.mk [addrA] 5).select).1
            = (BackendPool.mk [addrA] 5).backends[5 % (BackendPool.mk [addrA] 5).backends.length]?
          ∧ ((BackendPool.mk [addrA] 5).select).2.backends = (BackendPool.mk [addrA] 5).backends
          ∧ ((BackendPool.mk [addrA] 5).select).2.counter = (5 + 1) % USIZE_MOD) :=
  ⟨by decide, C2_select_round_robin.2.1 (BackendPool.mk [addrA] 5) (by decide)⟩

/-- `select` on an empty registry returns early: no counter change. -/
lemma select_of_backends_eq_nil (p : BackendPool) (h : p.backends = []) :
    p.select = (none, p) := by
  unfold BackendPool.select
  rw [dif_pos h]

/-- C6 counterexample: calling `select()` on an empty registry with counter 5
leaves the counter at 5 — the source returns `None` before the `fetch_add`,
so the counter does not advance to 6 as the claim requires. -/
theorem C6_empty_select_counter_counterexample :
    ¬ (((BackendPool.mk [] 5).select).2.counter = 5 + 1) := by
  decide

/-- C6 amended: calling `select()` on an empty registry does not change the
registry state at all — in particular the selection counter is not
incremented; the counter advances only on calls that find a non-empty
list. -/
theorem C6_empty_select_leaves_counter (p : BackendPool) (h : p.backends = []) :
    p.select = (none, p) :=
  select_of_backends_eq_nil p h

/-- Witness for the amended C6 at the empty registry with counter 0. -/
theorem C6_empty_select_leaves_counter_witness :
    (BackendPool.mk [] 0).backends = []
      ∧ (BackendPool.mk [] 0).select = (none, BackendPool.mk [] 0) :=
  ⟨rfl, C6_empty_select_leaves_counter (BackendPool.mk [] 0) rfl⟩

/-- C10: with an empty registry, the worker-facing `select_backend` never
reports absence — it returns the hardcoded fallback 127.0.0.1:8081, so the
reactor proceeds to connect there instead of failing the request. -/
theorem C10_select_backend_fallback (p : BackendPool) (h : p.backends = []) :
    (select_backend p).1 = FALLBACK_ADDR
      ∧ FALLBACK_ADDR = ⟨2130706433, 8081⟩ := by
  refine ⟨?_, rfl⟩
  unfold select_backend
  rw [select_of_backends_eq_nil p h]

/-- Witness for C10 at the empty registry with counter 7. -/
theorem C10_select_backend_fallback_witness :
    (BackendPool.mk [] 7).backends = []
      ∧ ((select_backend (BackendPool.mk [] 7)).1 = FALLBACK_ADDR
          ∧ FALLBACK_ADDR = ⟨2130706433, 8081⟩) :=
  ⟨rfl, C10_select_backend_fallback (BackendPool.mk [] 7) rfl⟩

/-! ## Idle backend cache (src/backend/connection_cache.rs) -/

/-- `MAX_CACHED` from src/backend/connection_cache.rs. -/
def MAX_CACHED : Nat := 200

/-- `BackendConnectionCache`: the worker-local
`HashMap<SocketAddr, VecDeque<RawFd>>`, modelled as a total map from
address to its deque (list head = deque front).  An absent key and a
present-but-empty deque are indistinguishable to both operations
(`get_mut` returning `None` and `pop_front` on an empty deque both yield
`None` and mutate nothing; `entry().or_default()` materializes the empty
deque), so both are modelled by `[]`. -/
def BackendConnectionCache := SockAddr → List Int

/-- `BackendConnectionCache::borrow_connection`: pop the front descriptor of
the address's deque, if any.  Returns the borrowed descriptor and the
updated cache. -/
def BackendConnectionCache.borrow_connection (m : BackendConnectionCache)
    (addr : SockAddr) : Option Int × BackendConnectionCache :=
  match m addr with
  | [] => (none, m)
  | fd :: rest => (some fd, fun x => if x = addr then rest else m x)

/-- `BackendConnectionCache::return_connection`: push the descriptor at the
back if the deque is below `MAX_CACHED`, otherwise close it immediately.
The second component is the descriptor passed to `close_fd_quiet`, if
any. -/
def BackendConnectionCache.return_connection (m : BackendConnectionCache)
    (addr : SockAddr) (fd : Int) : BackendConnectionCache × Option Int :=
  if (m addr).length < MAX_CACHED then
    (fun x => if x = addr then m addr ++ [fd] else m x, none)
  else
    (m, some fd)

/-- C9: for every cache state and address, `borrow_connection` removes and
returns the front descriptor of that address's deque when it is non-empty
and returns `None` leaving the cache unchanged otherwise; and
`return_connection` appends the descriptor at the back when the deque holds
fewer than `MAX_CACHED` (200) entries and otherwise closes the descriptor
immediately, leaving the cache unchanged. -/
theorem C9_cache_borrow_return (m : BackendConnectionCache) (addr : SockAddr)
    (fd : Int) :
    (∀ f r, m addr = f :: r →
        m.borrow_connection addr = (some f, fun x => if x = addr then r else m x))
      ∧ (m addr = [] → m.borrow_connection addr = (none, m))
      ∧ ((m addr).length < MAX_CACHED →
          m.return_connection addr fd
            = (fun x => if x = addr then m addr ++ [fd] else m x, none))
      ∧ (¬ (m addr).length < MAX_CACHED →
          m.return_connection addr fd = (m, some fd)) := by
  refine ⟨?_, ?_, ?_, ?_⟩
  · intro f r h
    unfold BackendConnectionCache.borrow_connection
    rw [h]
  · intro h
    unfold BackendConnectionCache.borrow_connection
    rw [h]
  · intro h
    unfold BackendConnectionCache.return_connection
    rw [if_pos h]
  · intro h
    unfold BackendConnectionCache.return_connection
    rw [if_neg h]

/-- Witness for C9: borrowing from a cache holding the single descriptor 9
under address A yields 9 and empties the deque; returning 9 to the empty
cache stores it. -/
theorem C9_cache_borrow_return_witness :
    ((fun x => if x = addrA then [(9 : Int)] else []) addrA = 9 :: [])
      ∧ BackendConnectionCache.borrow_connection
            (fun x => if x = addrA then [(9 : Int)] else []) addrA
          = (some 9,
            fun x => if x = addrA then []
              else (fun y => if y = addrA then [(9 : Int)] else []) x) :=
  ⟨by simp, (C9_cache_borrow_return (fun x => if x = addrA then [(9 : Int)] else [])
      addrA 9).1 9 [] (by simp)⟩

/-! ## Stream pumps (src/core/stream_pump.rs) and submission helpers
(src/balancer/uring_ops.rs)

The pump's fixed byte buffer is represented by its length `cap` (no claim
concerns the buffer's contents, only the cursor arithmetic over it); the
two `posted_*_len` fields are the byte counts of the outstanding recv/send
SQEs — state the kernel ring holds on the pump's behalf while the
corresponding `*_in_flight` flag is set. -/

structure StreamPump where
  read_fd : Int
  write_fd : Int
  cap : Nat
  bytes_ready_to_send : Nat
  bytes_already_sent : Nat
  recv_in_flight : Bool
  send_in_flight : Bool
  remaining_request_body_bytes : Option Nat
  posted_recv_len : Nat
  posted_send_len : Nat
deriving DecidableEq, Repr

/-- `StreamPump::new`. -/
def StreamPump.new (read_fd write_fd : Int) (buffer_capacity : Nat) : StreamPump :=
  { read_fd := read_fd
    write_fd := write_fd
    cap := buffer_capacity
    bytes_ready_to_send := 0
    bytes_already_sent := 0
    recv_in_flight := false
    send_in_flight := false
    remaining_request_body_bytes := none
    posted_recv_len := 0
    posted_send_len := 0 }

/-- `StreamPump::is_idle`. -/
def StreamPump.is_idle (p : StreamPump) : Bool :=
  !p.recv_in_flight && !p.send_in_flight && p.bytes_ready_to_send == 0

/-- `StreamPump::reset_buffer`. -/
def StreamPump.reset_buffer (p : StreamPump) : StreamPump :=
  { p with bytes_ready_to_send := 0, bytes_already_sent := 0 }

/-- `post_recv_pump` from src/balancer/uring_ops.rs.  The second component
is the SQE pushed to the ring, if any: destination fd and byte count
(`buffer.len() - bytes_ready_to_send`). -/
def post_recv_pump (pump : StreamPump) : StreamPump × Option (Int × Nat) :=
  if pump.recv_in_flight then (pump, none)
  else if pump.cap - pump.bytes_ready_to_send = 0 then (pump, none)
  else
    ({ pump with
        recv_in_flight := true
        posted_recv_len := pump.cap - pump.bytes_ready_to_send },
      some (pump.read_fd, pump.cap - pump.bytes_ready_to_send))

/-- `post_send_pump` from src/balancer/uring_ops.rs.  The second component
is the SQE pushed, if any: destination fd and byte count
(`bytes_ready_to_send - bytes_already_sent`). -/
def post_send_pump (pump : StreamPump) : StreamPump × Option (Int × Nat) :=
  if pump.send_in_flight then (pump, none)
  else if pump.bytes_ready_to_send ≤ pump.bytes_already_sent then (pump, none)
  else
    ({ pump with
        send_in_flight := true
        posted_send_len := pump.bytes_ready_to_send - pump.bytes_already_sent },
      some (pump.write_fd, pump.bytes_ready_to_send - pump.bytes_already_sent))

/-- A recv completion with result `res > 0` on a pump, as handled by
`handle_recv_client_to_backend` / `handle_recv_backend_to_client` in
src/balancer/worker.rs: clear the flag, extend `ready`, kick a send. -/
def on_recv_completion (pump : StreamPump) (res : Nat) : StreamPump × Option (Int × Nat) :=
  post_send_pump
    { pump with
        recv_in_flight := false
        bytes_ready_to_send := pump.bytes_ready_to_send + res }

/-- A send completion with result `res ≥ 0` on a pump, as handled by
`handle_send_client_to_backend` / `handle_send_backend_to_client` in
src/balancer/worker.rs: clear the flag, advance `sent`; on partial send
repost the send, on full send reset the cursors and re-arm the recv. -/
def on_send_completion (pump : StreamPump) (res : Nat) : StreamPump × Option (Int × Nat) :=
  if pump.bytes_already_sent + res < pump.bytes_ready_to_send then
    post_send_pump
      { pump with
          send_in_flight := false
          bytes_already_sent := pump.bytes_already_sent + res }
  else
    post_recv_pump
      (StreamPump.reset_buffer
        { pump with
            send_in_flight := false
            bytes_already_sent := pump.bytes_already_sent + res })

/-- Staging the parsed request into the client-to-backend pump
(`handle_recv_headers` in src/balancer/worker.rs): the request bytes are
copied into the buffer front truncated to its length
(`request_data.len().min(pump.buffer.len())`), `ready` is set to that
count and `sent` to zero. -/
def stage_request (pump : StreamPump) (request_len : Nat) : StreamPump :=
  { pump with
      bytes_ready_to_send := min request_len pump.cap
      bytes_already_sent := 0 }

/-- One reactor-induced transition of a single pump.  The completion
events carry the kernel ring's contract: a completion only arrives for an
outstanding submission (`*_in_flight = true`), and a recv/send result
never exceeds the byte count of the SQE it answers.  Staging only happens
on a pump with no outstanding operations (the pump is fresh from
`ensure_slot` when `handle_recv_headers` runs). -/
inductive PumpStep : StreamPump → StreamPump → Prop
  | stage (p : StreamPump) (request_len : Nat)
      (hr : p.recv_in_flight = false) (hs : p.send_in_flight = false) :
      PumpStep p (stage_request p request_len)
  | arm_send (p : StreamPump) : PumpStep p (post_send_pump p).1
  | arm_recv (p : StreamPump) : PumpStep p (post_recv_pump p).1
  | recv_completion (p : StreamPump) (res : Nat) (hif : p.recv_in_flight = true)
      (hpos : 0 < res) (hres : res ≤ p.posted_recv_len) :
      PumpStep p (on_recv_completion p res).1
  | send_completion (p : StreamPump) (res : Nat) (hif : p.send_in_flight = true)
      (hres : res ≤ p.posted_send_len) :
      PumpStep p (on_send_completion p res).1

/-- The pump invariant: cursor ordering plus the accounting of the
outstanding SQE lengths. -/
def PumpInv (p : StreamPump) : Prop :=
  p.bytes_already_sent ≤ p.bytes_ready_to_send
    ∧ p.bytes_ready_to_send ≤ p.cap
    ∧ (p.recv_in_flight = true → p.bytes_ready_to_send + p.posted_recv_len ≤ p.cap)
    ∧ (p.send_in_flight = true →
        p.bytes_already_sent + p.posted_send_len ≤ p.bytes_ready_to_send)

lemma pumpInv_post_recv (p : StreamPump) (h : PumpInv p) :
    PumpInv (post_recv_pump p).1 := by
  obtain ⟨h1, h2, h3, h4⟩ := h
  unfold post_recv_pump
  split
  · exact ⟨h1, h2, h3, h4⟩
  · split
    · exact ⟨h1, h2, h3, h4⟩
    · exact ⟨h1, h2, fun _ => by dsimp only; omega, h4⟩

lemma pumpInv_post_send (p : StreamPump) (h : PumpInv p) :
    PumpInv (post_send_pump p).1 := by
  obtain ⟨h1, h2, h3, h4⟩ := h
  unfold post_send_pump
  split
  · exact ⟨h1, h2, h3, h4⟩
  · split
    · exact ⟨h1, h2, h3, h4⟩
    · exact ⟨h1, h2, h3, fun _ => by dsimp only; omega⟩

lemma pumpInv_step (p q : StreamPump) (hs : PumpStep p q) (h : PumpInv p) :
    PumpInv q := by
  obtain ⟨h1, h2, h3, h4⟩ := h
  cases hs with
  | stage request_len hr hs' =>
    refine ⟨Nat.zero_le _, Nat.min_le_right _ _, ?_, ?_⟩
    · intro hc; simp [stage_request, hr] at hc
    · intro hc; simp [stage_request, hs'] at hc
  | arm_send => exact pumpInv_post_send p ⟨h1, h2, h3, h4⟩
  | arm_recv => exact pumpInv_post_recv p ⟨h1, h2, h3, h4⟩
  | recv_completion res hif hpos hres =>
    have hcap := h3 hif
    unfold on_recv_completion
    apply pumpInv_post_send
    refine ⟨?_, ?_, ?_, ?_⟩ <;> dsimp only
    · omega
    · omega
    · intro hc; simp at hc
    · intro hc; have := h4 hc; omega
  | send_completion res hif hres =>
    have hsent := h4 hif
    unfold on_send_completion
    split
    · apply pumpInv_post_send
      refine ⟨?_, ?_, ?_, ?_⟩ <;> dsimp only
      · omega
      · exact h2
      · intro hc; exact h3 hc
      · intro hc; simp at hc
    · apply pumpInv_post_recv
      refine ⟨?_, ?_, ?_, ?_⟩ <;> dsimp only [StreamPump.reset_buffer]
      · exact Nat.le_refl 0
      · exact Nat.zero_le _
      · intro hc; have := h3 hc; omega
      · intro hc; simp at hc

/-- The invariant holds in every state reachable from a fresh pump. -/
lemma pumpInv_reachable (rf wf : Int) (cap : Nat) (p : StreamPump)
    (h : Relation.ReflTransGen PumpStep (StreamPump.new rf wf cap) p) :
    PumpInv p := by
  induction h with
  | refl =>
    exact ⟨Nat.le_refl 0, Nat.zero_le _, fun hc => by simp [StreamPump.new] at hc,
      fun hc => by simp [StreamPump.new] at hc⟩
  | tail hr hstep ih => exact pumpInv_step _ _ hstep ih

/-- C7: in every state reachable from a fresh pump,
`0 ≤ sent ≤ ready ≤ capacity` holds, and at most one recv and one send
submission are outstanding: `post_recv_pump` pushes no SQE (and changes
nothing) when `recv_in_flight` is set or the buffer is full
(`ready = capacity`), and `post_send_pump` pushes no SQE (and changes
nothing) when `send_in_flight` is set or `sent = ready`. -/
theorem C7_pump_invariant (rf wf : Int) (cap : Nat) (p : StreamPump)
    (h : Relation.ReflTransGen PumpStep (StreamPump.new rf wf cap) p) :
    (p.bytes_already_sent ≤ p.bytes_ready_to_send ∧ p.bytes_ready_to_send ≤ p.cap)
      ∧ (p.recv_in_flight = true → post_recv_pump p = (p, none))
      ∧ (p.bytes_ready_to_send = p.cap → post_recv_pump p = (p, none))
      ∧ (p.send_in_flight = true → post_send_pump p = (p, none))
      ∧ (p.bytes_already_sent = p.bytes_ready_to_send → post_send_pump p = (p, none)) := by
  obtain ⟨h1, h2, h3, h4⟩ := pumpInv_reachable rf wf cap p h
  refine ⟨⟨h1, h2⟩, ?_, ?_, ?_, ?_⟩
  · intro hc; unfold post_recv_pump; rw [if_pos hc]
  · intro hc
    unfold post_recv_pump
    split
    · rfl
    · rw [if_pos (by omega)]
  · intro hc; unfold post_send_pump; rw [if_pos hc]
  · intro hc
    unfold post_send_pump
    split
    · rfl
    · rw [if_pos (by omega)]

/-- Witness for C7 at the fresh pump with the default 32 KiB buffer. -/
theorem C7_pump_invariant_witness :
    ((StreamPump.new 0 1 32768).bytes_already_sent
          ≤ (StreamPump.new 0 1 32768).bytes_ready_to_send
        ∧ (StreamPump.new 0 1 32768).bytes_ready_to_send ≤ (StreamPump.new 0 1 32768).cap)
      ∧ ((StreamPump.new 0 1 32768).recv_in_flight = true →
          post_recv_pump (StreamPump.new 0 1 32768) = (StreamPump.new 0 1 32768, none))
      ∧ ((StreamPump.new 0 1 32768).bytes_ready_to_send = (StreamPump.new 0 1 32768).cap →
          post_recv_pump (StreamPump.new 0 1 32768) = (StreamPump.new 0 1 32768, none))
      ∧ ((StreamPump.new 0 1 32768).send_in_flight = true →
          post_send_pump (StreamPump.new 0 1 32768) = (StreamPump.new 0 1 32768, none))
      ∧ ((StreamPump.new 0 1 32768).bytes_already_sent
            = (StreamPump.new 0 1 32768).bytes_ready_to_send →
          post_send_pump (StreamPump.new 0 1 32768) = (StreamPump.new 0 1 32768, none)) :=
  C7_pump_invariant 0 1 32768 (StreamPump.new 0 1 32768) Relation.ReflTransGen.refl

/-! ## Connection records and the slab
(src/protocol/http1.rs `HttpBuf`, src/core/connection_pair.rs,
src/balancer/connection_pool.rs)

`HttpBuf`'s backing bytes are represented by the buffer capacity alone;
the slab and finish claims only touch its cursors.  The raw
`sockaddr_storage` box is represented by `Option Unit` (present/absent). -/

structure HttpBuf where
  cap : Nat
  start : Nat
  end_ : Nat
deriving DecidableEq, Repr

/-- `HttpBuf::with_capacity`. -/
def HttpBuf.with_capacity (cap : Nat) : HttpBuf :=
  ⟨cap, 0, 0⟩

/-- `ConnectionPair` from src/core/connection_pair.rs. -/
structure ConnectionPair where
  id : Nat
  client_fd : Int
  backend_fd : Int
  backend_address : Option SockAddr
  backend_sockaddr_storage : Option Unit
  backend_sockaddr_len : Nat
  header_buffer : HttpBuf
  pump_client_to_backend : StreamPump
  pump_backend_to_client : StreamPump
  request_content_length : Option Nat
  request_transfer_encoding_chunked : Bool
  had_error : Bool
deriving DecidableEq, Repr

/-- `ConnectionPair::new_with_client`. -/
def ConnectionPair.new_with_client (id : Nat) (client_fd : Int)
    (io_buffer_capacity header_buffer_capacity : Nat) : ConnectionPair :=
  { id := id
    client_fd := client_fd
    backend_fd := -1
    backend_address := none
    backend_sockaddr_storage := none
    backend_sockaddr_len := 0
    header_buffer := HttpBuf.with_capacity header_buffer_capacity
    pump_client_to_backend := StreamPump.new client_fd (-1) io_buffer_capacity
    pump_backend_to_client := StreamPump.new (-1) client_fd io_buffer_capacity
    request_content_length := none
    request_transfer_encoding_chunked := false
    had_error := false }

/-- `ConnectionPair::attach_backend_socket`. -/
def ConnectionPair.attach_backend_socket (pair : ConnectionPair) (backend_fd : Int) :
    ConnectionPair :=
  { pair with
      backend_fd := backend_fd
      pump_client_to_backend := { pair.pump_client_to_backend with write_fd := backend_fd }
      pump_backend_to_client := { pair.pump_backend_to_client with read_fd := backend_fd } }

/-- `ConnectionPair::start_streaming`. -/
def ConnectionPair.start_streaming (pair : ConnectionPair) : ConnectionPair :=
  { pair with
      pump_client_to_backend :=
        { pair.pump_client_to_backend with
            read_fd := pair.client_fd, write_fd := pair.backend_fd }
      pump_backend_to_client :=
        { pair.pump_backend_to_client with
            read_fd := pair.backend_fd, write_fd := pair.client_fd } }

/-- `ConnectionPool` from src/balancer/connection_pool.rs. -/
structure ConnectionPool where
  pairs : List (Option ConnectionPair)
  freelist : List Nat
  io_buffer_capacity : Nat
  header_buffer_capacity : Nat
deriving DecidableEq, Repr

/-- `ConnectionPool::new` (`Vec::with_capacity` only reserves; the slab
starts empty). -/
def ConnectionPool.new (io_buffer_capacity header_buffer_capacity : Nat) :
    ConnectionPool :=
  ⟨[], [], io_buffer_capacity, header_buffer_capacity⟩

/-- `ConnectionPool::alloc`: pop the freelist front, else append a vacant
slot. -/
def ConnectionPool.alloc (p : ConnectionPool) : ConnectionPool × Nat :=
  match p.freelist with
  | id :: rest => ({ p with freelist := rest }, id)
  | [] => ({ p with pairs := p.pairs ++ [none] }, p.pairs.length)

/-- `ConnectionPool::ensure_slot`. -/
def ConnectionPool.ensure_slot (p : ConnectionPool) (id : Nat) (client_fd : Int) :
    ConnectionPool :=
  let pairs :=
    if p.pairs.length ≤ id then p.pairs ++ List.replicate (id + 1 - p.pairs.length) none
    else p.pairs
  { p with
      pairs := pairs.set id
        (some (ConnectionPair.new_with_client id client_fd
          p.io_buffer_capacity p.header_buffer_capacity)) }

/-- `ConnectionPool::get_mut` (read view). -/
def ConnectionPool.get (p : ConnectionPool) (id : Nat) : Option ConnectionPair :=
  p.pairs.getD id none

/-- Writing an updated pair back to its slot (the effect of mutation
through `get_mut`). -/
def ConnectionPool.setPair (p : ConnectionPool) (id : Nat) (pair : ConnectionPair) :
    ConnectionPool :=
  { p with pairs := p.pairs.set id (some pair) }

/-- `ConnectionPool::teardown`: take the pair, close both non-negative
descriptors (client first), and push the id onto the freelist.  The second
component lists the descriptors passed to `close_fd_quiet`. -/
def ConnectionPool.teardown (p : ConnectionPool) (id : Nat) : ConnectionPool × List Int :=
  match p.pairs.getD id none with
  | some pair =>
      ({ p with pairs := p.pairs.set id none, freelist := p.freelist ++ [id] },
        (if 0 ≤ pair.client_fd then [pair.client_fd] else [])
          ++ (if 0 ≤ pair.backend_fd then [pair.backend_fd] else []))
  | none => (p, [])

/-- `ConnectionPool::recycle_slot_only`: the let-chain takes the pair out of
the slot (vacating it) and closes the client descriptor when it is
non-negative.  Unlike `teardown`, no id is pushed onto the freelist. -/
def ConnectionPool.recycle_slot_only (p : ConnectionPool) (id : Nat) :
    ConnectionPool × List Int :=
  match p.pairs.getD id none with
  | some pair =>
      ({ p with pairs := p.pairs.set id none },
        if 0 ≤ pair.client_fd then [pair.client_fd] else [])
  | none => (p, [])

/-! ## The live backend-to-client recv handler (src/balancer/worker.rs)

`balancer/mod.rs` declares only `connection_pool`, `uring_ops` and
`worker`; the `handlers` (and `config`) files are not part of the module
tree, so `run_worker` dispatches to the local handlers defined at the
bottom of worker.rs. -/

/-- `handle_recv_backend_to_client` from src/balancer/worker.rs (the
handler `run_worker` actually dispatches): `res ≤ 0` — including the
upstream-EOF result 0 — tears the connection down; `res > 0` refills the
pump and kicks a send.  Returns the pool, the closed descriptors, and the
SQE pushed (if any). -/
def worker_handle_recv_backend_to_client (pool : ConnectionPool) (id : Nat)
    (res : Int) : ConnectionPool × List Int × Option (Int × Nat) :=
  if res ≤ 0 then
    ((pool.teardown id).1, (pool.teardown id).2, none)
  else
    match pool.get id with
    | none => (pool, [], none)
    | some pair =>
        (pool.setPair id
            { pair with
                pump_backend_to_client :=
                  (on_recv_completion pair.pump_backend_to_client res.toNat).1 },
          [],
          (on_recv_completion pair.pump_backend_to_client res.toNat).2)

/-! ## The unwired finish path (src/balancer/handlers.rs)

src/balancer/handlers.rs contains a second set of handlers with the
cache-return finish path, but it is dead code: no `mod handlers` exists in
balancer/mod.rs.  It is embedded here because the design document (and the
claims) describe its behavior. -/

/-- `reset_pump_after_finish` from src/balancer/handlers.rs. -/
def reset_pump_after_finish (pump : StreamPump) : StreamPump :=
  { pump.reset_buffer with
      read_fd := -1
      write_fd := -1
      recv_in_flight := false
      send_in_flight := false
      remaining_request_body_bytes := none }

/-- `finish_request` from src/balancer/handlers.rs.  Returns the cleared
pair, the updated cache, the descriptors closed, and the `reused` flag. -/
def finish_request (pair : ConnectionPair) (cache : BackendConnectionCache) :
    ConnectionPair × BackendConnectionCache × List Int × Bool :=
  let pumps_idle :=
    pair.pump_client_to_backend.is_idle && pair.pump_backend_to_client.is_idle
  let healthy_backend := !pair.had_error && decide (0 ≤ pair.backend_fd)
  let t : BackendConnectionCache × List Int × Bool × Int :=
    if pumps_idle && healthy_backend then
      match pair.backend_address with
      | some addr =>
          ((cache.return_connection addr pair.backend_fd).1,
            (cache.return_connection addr pair.backend_fd).2.toList, true, -1)
      | none => (cache, [pair.backend_fd], false, -1)
    else if 0 ≤ pair.backend_fd then (cache, [pair.backend_fd], false, -1)
    else (cache, [], false, pair.backend_fd)
  ({ pair with
      backend_fd := t.2.2.2
      backend_address := none
      backend_sockaddr_storage := none
      backend_sockaddr_len := 0
      request_content_length := none
      request_transfer_encoding_chunked := false
      had_error := false
      pump_client_to_backend := reset_pump_after_finish pair.pump_client_to_backend
      pump_backend_to_client := reset_pump_after_finish pair.pump_backend_to_client
      header_buffer := { pair.header_buffer with start := 0, end_ := 0 } },
    t.1, t.2.1, t.2.2.1)

/-- `handle_recv_backend_to_client` from src/balancer/handlers.rs (dead
code): on res = 0 it clears the recv flag, runs `finish_request`, and
recycles the slot on reuse (tearing down otherwise).  Returns the pool,
the cache, the closed descriptors, and the SQE pushed (if any). -/
def handlers_handle_recv_backend_to_client (pool : ConnectionPool)
    (cache : BackendConnectionCache) (id : Nat) (res : Int) :
    ConnectionPool × BackendConnectionCache × List Int × Option (Int × Nat) :=
  if res < 0 then
    let pool1 :=
      match pool.get id with
      | some pair => pool.setPair id { pair with had_error := true }
      | none => pool
    ((pool1.teardown id).1, cache, (pool1.teardown id).2, none)
  else
    match pool.get id with
    | none => (pool, cache, [], none)
    | some pair =>
        if res = 0 then
          let fr := finish_request
            { pair with
                pump_backend_to_client :=
                  { pair.pump_backend_to_client with recv_in_flight := false } }
            cache
          let pool1 := pool.setPair id fr.1
          if fr.2.2.2 then
            ((pool1.recycle_slot_only id).1, fr.2.1,
              fr.2.2.1 ++ (pool1.recycle_slot_only id).2, none)
          else
            ((pool1.teardown id).1, fr.2.1, fr.2.2.1 ++ (pool1.teardown id).2, none)
        else
          (pool.setPair id
              { pair with
                  pump_backend_to_client :=
                    (on_recv_completion pair.pump_backend_to_client res.toNat).1 },
            cache, [],
            (on_recv_completion pair.pump_backend_to_client res.toNat).2)

/-! ## Slab invariant and concrete states for C1/C3 -/

/-- Invariant 2 of the design document: live slab ids and freelist ids are
disjoint and their union is `[0, slab.len())` (stated decidably over
`List.range`). -/
def SlabInv (p : ConnectionPool) : Prop :=
  p.freelist.Nodup
    ∧ (∀ i ∈ List.range p.pairs.length,
        ((p.pairs.getD i none).isSome = true ↔ i ∉ p.freelist))
    ∧ (∀ i ∈ p.freelist, i < p.pairs.length)

/-- A connection pair in mid-response streaming state: client fd 4 accepted,
backend fd 7 attached and connected for address 127.0.0.1:8081, a recv
outstanding on the backend-to-client pump, nothing buffered. -/
def streamingPair : ConnectionPair :=
  { (((ConnectionPair.new_with_client 0 4 32768 8192).attach_backend_socket
        7).start_streaming) with
      backend_address := some addrA
      pump_backend_to_client :=
        (post_recv_pump
          ((((ConnectionPair.new_with_client 0 4 32768
              8192).attach_backend_socket 7).start_streaming)).pump_backend_to_client).1 }

/-- The one-connection slab holding `streamingPair` at id 0. -/
def streamingPool : ConnectionPool :=
  ⟨[some streamingPair], [], 32768, 8192⟩

/-- C3 (code bug): `recycle_slot_only` vacates the slot but never returns
the vacated id to the freelist, breaking the disjoint-union slab
invariant.  From the valid one-slot pool, `recycle_slot_only 0` leaves
`pairs = [none]` with an empty freelist (id 0 leaked, invariant broken),
whereas `teardown 0` — the source's own pattern for vacating — pushes id 0
and preserves the invariant. -/
theorem C3_recycle_leaks_slab_id :
    SlabInv (ConnectionPool.mk [some streamingPair] [] 32768 8192)
      ∧ ((ConnectionPool.mk [some streamingPair] [] 32768 8192).recycle_slot_only 0).1
          = ConnectionPool.mk [none] [] 32768 8192
      ∧ ¬ SlabInv (ConnectionPool.mk [none] [] 32768 8192)
      ∧ ((ConnectionPool.mk [some streamingPair] [] 32768 8192).teardown 0).1
          = ConnectionPool.mk [none] [0] 32768 8192
      ∧ SlabInv (ConnectionPool.mk [none] [0] 32768 8192) := by
  unfold SlabInv
  decide

/-- C1 (code bug): a backend-to-client recv completes with result 0
(upstream EOF) on a connection whose pumps are idle (once the completed
recv's flag is cleared) and whose `had_error` is false.  The live handler
(worker.rs, the one `run_worker` dispatches) tears the connection down:
both descriptors — client 4 and backend 7 — are closed and the id goes to
the freelist; the backend fd is *not* returned to the idle cache.  The
unwired handlers.rs path would cache fd 7 under its address, but even
there the slab id is never freed (`recycle_slot_only` leaves the freelist
empty). -/
theorem C1_upstream_eof_closes_backend :
    (streamingPair.had_error = false
        ∧ streamingPair.pump_client_to_backend.is_idle = true
        ∧ (StreamPump.is_idle
            { streamingPair.pump_backend_to_client with recv_in_flight := false }) = true)
      ∧ worker_handle_recv_backend_to_client streamingPool 0 0
          = (ConnectionPool.mk [none] [0] 32768 8192, [4, 7], none)
      ∧ ((handlers_handle_recv_backend_to_client streamingPool (fun _ => []) 0 0).2.1 addrA
            = [7]
          ∧ (handlers_handle_recv_backend_to_client streamingPool (fun _ => []) 0 0).1
              = ConnectionPool.mk [none] [] 32768 8192
          ∧ (handlers_handle_recv_backend_to_client streamingPool (fun _ => []) 0 0).2.2.1
              = [4]) := by
  refine ⟨⟨rfl, rfl, rfl⟩, by decide, rfl, by decide, rfl⟩

/-! ## HTTP/1.1 header peek parser (src/protocol/http1.rs)

Byte windows are `List Nat` (byte values).  `memmem::find` is embedded as
`findSub`: the index of the first occurrence of the pattern. -/

/-- `\r\n\r\n`. -/
def crlfcrlf : List Nat := [13, 10, 13, 10]

/-- `\r\n`. -/
def crlf : List Nat := [13, 10]

/-- `memmem::find pat l`: index of the first occurrence of `pat` in `l`. -/
def findSub (pat : List Nat) : List Nat → Option Nat
  | [] => if pat = [] then some 0 else none
  | a :: t =>
    if (a :: t).take pat.length = pat then some 0
    else (findSub pat t).map (· + 1)

/-- `u8::to_ascii_lowercase`. -/
def toLowerByte (x : Nat) : Nat :=
  if 65 ≤ x ∧ x ≤ 90 then x + 32 else x

/-- `ascii_equals_ignore_case` from src/protocol/http1.rs. -/
def ascii_equals_ignore_case (a b : List Nat) : Bool :=
  a.length == b.length
    && (List.zip a b).all (fun q => toLowerByte q.1 == toLowerByte q.2)

/-- A space or horizontal tab byte. -/
def isSpaceTab (b : Nat) : Bool :=
  b == 32 || b == 9

/-- `trim_ascii_whitespace` from src/protocol/http1.rs: strip leading and
trailing spaces and tabs. -/
def trim_ascii_whitespace (bytes : List Nat) : List Nat :=
  ((bytes.dropWhile isSpaceTab).reverse.dropWhile isSpaceTab).reverse

/-- `parse_usize_decimal_strict` from src/protocol/http1.rs: strict
non-negative decimal over the trimmed input; any non-digit fails, as does
`usize` overflow (`checked_mul`/`checked_add`); the empty trimmed input
parses to 0. -/
def parse_usize_decimal_strict (input : List Nat) : Option Nat :=
  (trim_ascii_whitespace input).foldl
    (fun acc ch =>
      match acc with
      | none => none
      | some v =>
        if 48 ≤ ch ∧ ch ≤ 57 then
          if v * 10 + (ch - 48) < USIZE_MOD then some (v * 10 + (ch - 48)) else none
        else none)
    (some 0)

/-- The bytes of `"Host"`. -/
def hostBytes : List Nat := [72, 111, 115, 116]

/-- The bytes of `"Content-Length"`. -/
def contentLengthBytes : List Nat :=
  [67, 111, 110, 116, 101, 110, 116, 45, 76, 101, 110, 103, 116, 104]

/-- The bytes of `"Transfer-Encoding"`. -/
def transferEncodingBytes : List Nat :=
  [84, 114, 97, 110, 115, 102, 101, 114, 45, 69, 110, 99, 111, 100, 105, 110, 103]

/-- The bytes of `"chunked"`. -/
def chunkedBytes : List Nat := [99, 104, 117, 110, 107, 101, 100]

/-- `HttpMetadata` from src/protocol/http1.rs (borrowed slices become byte
lists). -/
structure HttpMetadata where
  method_bytes : List Nat
  path_bytes : List Nat
  host_header_value : Option (List Nat)
  content_length_value : Option Nat
  transfer_encoding_is_chunked : Bool
  header_block_end_index : Nat
deriving DecidableEq, Repr

/-- One iteration body of the header loop: the handling of a single header
line (colon split, name dispatch on Host / Content-Length /
Transfer-Encoding). -/
def processHeaderLine (header_line : List Nat) (host : Option (List Nat))
    (clen : Option Nat) (chunked : Bool) :
    Option (List Nat) × Option Nat × Bool :=
  match header_line.findIdx? (fun b => b == 58) with
  | some colon_index =>
    let raw_name := header_line.take colon_index
    let value := trim_ascii_whitespace (header_line.drop (colon_index + 1))
    if ascii_equals_ignore_case raw_name hostBytes then
      (if value.isEmpty then host else some value, clen, chunked)
    else if ascii_equals_ignore_case raw_name contentLengthBytes then
      (host, parse_usize_decimal_strict value, chunked)
    else if ascii_equals_ignore_case raw_name transferEncodingBytes then
      (host, clen,
        chunked
          || (value.splitOn 44).any
              (fun tok => ascii_equals_ignore_case (trim_ascii_whitespace tok) chunkedBytes))
    else (host, clen, chunked)
  | none => (host, clen, chunked)

/-- The end of the header line starting at `line_start`: the next CRLF, or
the end of the block when the terminal CRLF is missing. -/
def lineEndAt (headers : List Nat) (line_start : Nat) : Nat :=
  match findSub crlf (headers.drop line_start) with
  | some rel => line_start + rel
  | none => headers.length

lemma lineEndAt_ge (headers : List Nat) (line_start : Nat) :
    line_start ≤ headers.length → line_start ≤ lineEndAt headers line_start := by
  intro h
  unfold lineEndAt
  cases findSub crlf (headers.drop line_start) with
  | none => exact h
  | some rel => exact Nat.le_add_right _ _

/-- The header loop of `peek_request_headers`: walks CRLF-delimited lines
from `line_start` to the end of the header block, accumulating the Host,
Content-Length and Transfer-Encoding extractions. -/
def headerLoop (headers : List Nat) (line_start : Nat) (host : Option (List Nat))
    (clen : Option Nat) (chunked : Bool) : Option (List Nat) × Option Nat × Bool :=
  if h : line_start < headers.length then
    let line_end := lineEndAt headers line_start
    let header_line := (headers.take line_end).drop line_start
    let upd := processHeaderLine header_line host clen chunked
    headerLoop headers (line_end + 2) upd.1 upd.2.1 upd.2.2
  else (host, clen, chunked)
termination_by headers.length - line_start
decreasing_by
  have hge := lineEndAt_ge headers line_start (Nat.le_of_lt h)
  omega

/-- Everything `peek_request_headers` does after locating the CRLFCRLF
marker; it reads only the window before the marker and the marker's
position. -/
def peekAfterMarker (crlf_crlf_position : Nat) (headers_without : List Nat) :
    Except String HttpMetadata :=
  match findSub crlf headers_without with
  | none => .error "Bad message"
  | some request_line_end_rel =>
    let request_line := headers_without.take request_line_end_rel
    let fields := request_line.splitOn 32
    match fields.get? 0, fields.get? 1, fields.get? 2 with
    | some method_bytes, some path_bytes, some version_bytes =>
      if method_bytes.isEmpty || version_bytes.length < 8 then .error "bad"
      else
        let r := headerLoop headers_without (request_line_end_rel + 2) none none false
        .ok
          { method_bytes := method_bytes
            path_bytes := path_bytes
            host_header_value := r.1
            content_length_value := r.2.1
            transfer_encoding_is_chunked := r.2.2
            header_block_end_index := crlf_crlf_position + 4 }
    | _, _, _ => .error "Bad"

/-- `peek_request_headers` from src/protocol/http1.rs. -/
def peek_request_headers (request_window : List Nat) : Except String HttpMetadata :=
  match findSub crlfcrlf request_window with
  | none => .error "Incomplete message"
  | some crlf_crlf_position =>
    peekAfterMarker crlf_crlf_position (request_window.take crlf_crlf_position)

/-- A found pattern fits inside the window. -/
lemma findSub_some_le (pat : List Nat) :
    ∀ (l : List Nat) (i : Nat), findSub pat l = some i → i + pat.length ≤ l.length := by
  intro l
  induction l with
  | nil =>
    intro i h
    by_cases hp : pat = []
    · subst hp
      simp [findSub] at h
      simp [← h]
    · simp [findSub, hp] at h
  | cons a t ih =>
    intro i h
    unfold findSub at h
    by_cases hc : (a :: t).take pat.length = pat
    · rw [if_pos hc] at h
      have hi : i = 0 := by
        have := h
        simp at this
        omega
      have hlen := congrArg List.length hc
      simp [List.length_take] at hlen
      simp [hi]
      omega
    · rw [if_neg hc] at h
      cases hm : findSub pat t with
      | none => rw [hm] at h; simp at h
      | some j =>
        rw [hm] at h
        simp at h
        have := ih j hm
        simp
        omega

/-- First-occurrence search is stable under extending the window: a match
found in a window is found, at the same index, in every extension. -/
lemma findSub_mono (pat : List Nat) :
    ∀ (p w : List Nat), p <+: w → ∀ i, findSub pat p = some i → findSub pat w = some i := by
  intro p
  induction p with
  | nil =>
    intro w hp i h
    by_cases hp' : pat = []
    · subst hp'
      simp [findSub] at h
      rw [← h]
      cases w <;> simp [findSub]
    · simp [findSub, hp'] at h
  | cons a t ih =>
    intro w hp i h
    obtain ⟨s, rfl⟩ := hp
    simp only [findSub, List.append_eq] at h ⊢
    by_cases hc : (a :: t).take pat.length = pat
    · rw [if_pos hc] at h
      have hlen : pat.length ≤ t.length + 1 := by
        have := congrArg List.length hc
        simp [List.length_take] at this
        omega
      have hc' : (a :: (t ++ s)).take pat.length = pat := by
        show ((a :: t) ++ s).take pat.length = pat
        rw [List.take_append_of_le_length (by simpa using hlen)]
        exact hc
      rw [if_pos hc']
      exact h
    · rw [if_neg hc] at h
      cases hm : findSub pat t with
      | none => rw [hm] at h; simp at h
      | some j =>
        rw [hm] at h
        simp at h
        have hle := findSub_some_le pat t j hm
        have hc' : ¬ (a :: (t ++ s)).take pat.length = pat := by
          show ¬ ((a :: t) ++ s).take pat.length = pat
          rw [@List.take_append_of_le_length _ (a :: t) s pat.length (by simp; omega)]
          exact hc
        rw [if_neg hc']
        rw [ih (t ++ s) ⟨s, rfl⟩ j hm]
        simp [h]

/-- C8: the header peek parser is a pure function — equal input windows
yield equal results — and prefix-monotone: for every window `w` and every
prefix `p` of `w`, parsing `p` yields either exactly the result of parsing
`w` or the Incomplete error. -/
theorem C8_parser_deterministic_prefix_monotone :
    (∀ w₁ w₂ : List Nat, w₁ = w₂ →
        peek_request_headers w₁ = peek_request_headers w₂)
      ∧ (∀ w p : List Nat, p <+: w →
          peek_request_headers p = peek_request_headers w
            ∨ peek_request_headers p = Except.error "Incomplete message") := by
  constructor
  · intro w₁ w₂ h
    rw [h]
  · intro w p hp
    cases hF : findSub crlfcrlf p with
    | none =>
      right
      simp only [peek_request_headers, hF]
    | some pos =>
      left
      have hw := findSub_mono crlfcrlf p w hp pos hF
      have hle := findSub_some_le crlfcrlf p pos hF
      obtain ⟨s, rfl⟩ := hp
      have htake : (p ++ s).take pos = p.take pos :=
        List.take_append_of_le_length (by simp [crlfcrlf] at hle; omega)
      simp only [peek_request_headers, hF, hw, htake]

/-- Witness for C8: the empty window is a prefix of the bare CRLFCRLF
marker, and parsing it is Incomplete. -/
theorem C8_parser_deterministic_prefix_monotone_witness :
    ([] : List Nat) <+: [13, 10, 13, 10]
      ∧ (peek_request_headers [] = peek_request_headers [13, 10, 13, 10]
          ∨ peek_request_headers [] = Except.error "Incomplete message") :=
  ⟨List.nil_prefix,
    C8_parser_deterministic_prefix_monotone.2 [13, 10, 13, 10] [] List.nil_prefix⟩

end Flax
